import Mathlib

/-!
Verification of the description/data-model layer of pyimfit
(`src/pyimfit/descriptions.py`).

The Python classes are shallowly embedded as Lean structures.  Python floats
are modelled as rationals (the claims under study are structural: orderings,
clamping, equality, error paths — none depends on floating-point rounding).
Python exceptions are modelled by the inductive `PyErr`; an operation that can
raise returns `Except PyErr _` (constructors, setters) or, for the mutating
add-operations, a pair of the post-call state and an optional raised error,
which mirrors the fact that CPython raises before any mutation in those
methods, leaving the receiver unchanged.

A second, heap-indexed model (`Store`, `HFunctionDescription`, ...) is used for
aliasing claims: `ParameterDescription` objects live in a store addressed by
`PRef` and the copy operations are translated so that Python object identity
becomes reference equality.
-/

namespace PyImfit

/-- Python exception classes raised in `descriptions.py`: `ValueError`,
`KeyError`, and the bare `Exception` raised by
`SimpleModelDescription.addFunctionSet`. -/
inductive PyErr where
  | valueError (msg : String)
  | keyError (msg : String)
  | exception (msg : String)
deriving DecidableEq, Repr, Inhabited

deriving instance DecidableEq for Except

/-- Embeds `ParameterDescription`: fields `_name`, `_value`, `_limits`,
`fixed` (descriptions.py lines 54–57, 126–127). -/
structure ParameterDescription where
  name : String
  value : ℚ
  limits : Option (ℚ × ℚ)
  fixed : Bool
deriving DecidableEq, Repr, Inhabited

/-- The clamp block of `ParameterDescription.setValue` (lines 117–121):
`if value < lower_limit: lower_limit = value`
`elif value > upper_limit: upper_limit = value`. -/
def clampToValue (value lo hi : ℚ) : ℚ × ℚ :=
  if value < lo then (value, hi)
  else if value > hi then (lo, value)
  else (lo, hi)

/-- Embeds `ParameterDescription.setValue` (lines 84–127).  The `vmin`
argument is `None`, a scalar lower limit (`Sum.inl`), or a two-element
sequence holding both limits (`Sum.inr`).  When `vmin is None` the whole
limits block is skipped — whatever `vmax` is — and only `_value` and `fixed`
are assigned.  When `vmin` is a scalar and `vmax is None`, the unpacking
`lower_limit, upper_limit = vmin` raises `TypeError`, converted to
`ValueError`.  A two-element `vmin` together with a non-`None` `vmax` makes
`lower_limit` a tuple and the comparison `value < lower_limit` raises
`TypeError` (modelled as `PyErr.exception`). -/
def ParameterDescription.setValue (p : ParameterDescription) (value : ℚ)
    (vmin : Option (ℚ ⊕ ℚ × ℚ)) (vmax : Option ℚ) (fixed : Bool) :
    Except PyErr ParameterDescription :=
  match vmin with
  | none => .ok { p with value := value, fixed := fixed }
  | some v =>
    match vmax, v with
    | none, .inl _ =>
        .error (.valueError "If vmax is None, vmin must be None or two-element iterable.")
    | some _, .inr _ =>
        .error (.exception "TypeError: float and tuple are not comparable")
    | none, .inr (lo, hi) =>
        let c := clampToValue value lo hi
        if c.1 ≥ c.2 then .error (.valueError "Lower limit must be < upper limit.")
        else .ok { name := p.name, value := value, limits := some c, fixed := fixed }
    | some hi, .inl lo =>
        let c := clampToValue value lo hi
        if c.1 ≥ c.2 then .error (.valueError "Lower limit must be < upper limit.")
        else .ok { name := p.name, value := value, limits := some c, fixed := fixed }

/-- Embeds `ParameterDescription.setTolerance` (lines 130–145): rejects
`tol > 1.0 or tol < 0.0`, then assigns
`_limits = (_value * (1 - tol), _value * (1 + tol))` with no clamping and no
ordering check. -/
def ParameterDescription.setTolerance (p : ParameterDescription) (tol : ℚ) :
    Except PyErr ParameterDescription :=
  if tol > 1 ∨ tol < 0 then .error (.valueError "Tolerance must be between 0.0 and 1.0.")
  else .ok { p with limits := some (p.value * (1 - tol), p.value * (1 + tol)) }

/-- Embeds `ParameterDescription.setLimits` (lines 166–184): rejects
`v1 >= v2` first, then clamps `v1` down to the current value if
`v1 > _value`, else raises `v2` to the current value if `v2 < _value`. -/
def ParameterDescription.setLimits (p : ParameterDescription) (v1 v2 : ℚ) :
    Except PyErr ParameterDescription :=
  if v1 ≥ v2 then .error (.valueError "v2 must be larger than v1.")
  else
    let lims :=
      if v1 > p.value then (p.value, v2)
      else if v2 < p.value then (v1, p.value)
      else (v1, v2)
    .ok { p with limits := some lims }

/-- Embeds `ParameterDescription.setLimitsRel` (lines 148–163). -/
def ParameterDescription.setLimitsRel (p : ParameterDescription) (i1 i2 : ℚ) :
    Except PyErr ParameterDescription :=
  if i1 < 0 ∨ i2 < 0 then .error (.valueError "Limit intervals must be positive.")
  else p.setLimits (p.value - i1) (p.value + i2)

/-- Embeds `ParameterDescription.__init__` (lines 54–57): stores the name,
sets `_limits = None`, then delegates to `setValue` (which can raise). -/
def ParameterDescription.init (name : String) (value : ℚ)
    (vmin : Option (ℚ ⊕ ℚ × ℚ)) (vmax : Option ℚ) (fixed : Bool) :
    Except PyErr ParameterDescription :=
  ParameterDescription.setValue
    { name := name, value := value, limits := none, fixed := false }
    value vmin vmax fixed

/-- Embeds `ParameterDescription.__eq__` (lines 187–192): compares `_name`,
`_value` and `_limits`; the `fixed` flag does not participate. -/
def ParameterDescription.eq (a b : ParameterDescription) : Bool :=
  a.name == b.name && a.value == b.value && a.limits == b.limits

/-- Embeds `FunctionDescription`: `funcType`, `_name` (defaulted to
`funcType` by `__init__`), `_parameters` (lines 238–246). -/
structure FunctionDescription where
  funcType : String
  name : String
  parameters : List ParameterDescription
deriving DecidableEq, Repr, Inhabited

/-- Embeds `FunctionSetDescription`: `_name`, `x0`, `y0`, `_functions`
(lines 341–354). -/
structure FunctionSetDescription where
  name : String
  x0 : ParameterDescription
  y0 : ParameterDescription
  functions : List FunctionDescription
deriving DecidableEq, Repr, Inhabited

/-- Embeds `ModelDescription`: `options` (a dict from option name to float,
modelled as an association list) and `_functionSets` (lines 489–495). -/
structure ModelDescription where
  options : List (String × ℚ)
  functionSets : List FunctionSetDescription
deriving DecidableEq, Repr, Inhabited

/-- Embeds `SimpleModelDescription` (lines 653–726), a `ModelDescription`
subclass restricted to one function set; the inherited state is the wrapped
model. -/
structure SimpleModelDescription where
  toModel : ModelDescription
deriving DecidableEq, Repr, Inhabited

/-- A runtime value passed to one of the add-operations; Python checks the
class of the argument with `isinstance`. -/
inductive PyVal where
  | param (p : ParameterDescription)
  | func (f : FunctionDescription)
  | funcSet (fs : FunctionSetDescription)
  | model (m : ModelDescription)
  | num (q : ℚ)
  | str (s : String)
deriving DecidableEq, Repr, Inhabited

/-- Python list equality: same length and elementwise `__eq__`. -/
def listEqBy (f : α → α → Bool) : List α → List α → Bool
  | [], [] => true
  | x :: xs, y :: ys => f x y && listEqBy f xs ys
  | _, _ => false

/-- Python dict equality on the `options` mapping: the same key-value pairs,
regardless of insertion order. -/
def dictEq (a b : List (String × ℚ)) : Bool :=
  a.all (fun kv => List.lookup kv.1 b == some kv.2) &&
    b.all (fun kv => List.lookup kv.1 a == some kv.2)

/-- Embeds `FunctionDescription.parameterList` (lines 266–275):
`[p for p in self._parameters]` — a fresh list holding the same entries. -/
def FunctionDescription.parameterList (f : FunctionDescription) :
    List ParameterDescription :=
  f.parameters.map (fun p => p)

/-- Embeds `FunctionDescription.addParameter` (lines 257–263): `ValueError`
unless the argument is a `ParameterDescription`, else append.  The raise
happens before the append, so on failure `_parameters` is unchanged. -/
def FunctionDescription.addParameter (f : FunctionDescription) (v : PyVal) :
    FunctionDescription × Option PyErr :=
  match v with
  | .param p => ({ f with parameters := f.parameters ++ [p] }, none)
  | _ => (f, some (.valueError "p is not a ParameterDescription object."))

/-- Embeds `FunctionDescription.__init__` (lines 238–246): the label defaults
to `funcType`; the given parameters are added through `addParameter`. -/
def FunctionDescription.init (funcType : String) (label : Option String)
    (params : List PyVal) : Except PyErr FunctionDescription :=
  params.foldlM
    (fun f v =>
      match f.addParameter v with
      | (f2, none) => .ok f2
      | (_, some e) => .error e)
    { funcType := funcType, name := label.getD funcType, parameters := [] }

/-- Embeds `FunctionDescription.__eq__` (lines 278–283). -/
def FunctionDescription.eq (a b : FunctionDescription) : Bool :=
  a.funcType == b.funcType && a.name == b.name &&
    listEqBy ParameterDescription.eq a.parameters b.parameters

/-- Embeds `FunctionDescription.__deepcopy__` (lines 293–296): a new object
with the same `funcType`/`name` and `copy(p)` of each parameter (a
`ParameterDescription` holds only scalars and a tuple, so the shallow copy
is an independent object of equal field values). -/
def FunctionDescription.deepcopy (f : FunctionDescription) : FunctionDescription :=
  { funcType := f.funcType, name := f.name,
    parameters := f.parameters.map (fun p => p) }

/-- Embeds `FunctionSetDescription._contains` (lines 384–388). -/
def FunctionSetDescription.containsName (fs : FunctionSetDescription)
    (name : String) : Bool :=
  fs.functions.any (fun f => f.name == name)

/-- Embeds `FunctionSetDescription.addFunction` (lines 365–381):
`ValueError` unless the argument is a `FunctionDescription`, `KeyError` on a
duplicate label, else append.  Both raises happen before the append. -/
def FunctionSetDescription.addFunction (fs : FunctionSetDescription) (v : PyVal) :
    FunctionSetDescription × Option PyErr :=
  match v with
  | .func f =>
    if fs.containsName f.name then
      (fs, some (.keyError ("Function named " ++ f.name ++ " already exists.")))
    else
      ({ fs with functions := fs.functions ++ [f] }, none)
  | _ => (fs, some (.valueError "func is not a Function object."))

/-- Embeds `FunctionSetDescription.__init__` (lines 341–354): missing
`x0param`/`y0param` default to `ParameterDescription('X0', 0.0)` /
`ParameterDescription('Y0', 0.0)`; given functions are added through
`addFunction`. -/
def FunctionSetDescription.init (name : String)
    (x0param y0param : Option ParameterDescription) (functions : List PyVal) :
    Except PyErr FunctionSetDescription :=
  functions.foldlM
    (fun fs v =>
      match fs.addFunction v with
      | (fs2, none) => .ok fs2
      | (_, some e) => .error e)
    { name := name,
      x0 := x0param.getD { name := "X0", value := 0, limits := none, fixed := false },
      y0 := y0param.getD { name := "Y0", value := 0, limits := none, fixed := false },
      functions := [] }

/-- Embeds `FunctionSetDescription.functionList` (lines 391–400). -/
def FunctionSetDescription.functionList (fs : FunctionSetDescription) :
    List String :=
  fs.functions.map (fun f => f.funcType)

/-- Embeds `FunctionSetDescription.parameterList` (lines 403–418): start from
`[x0, y0]` (two appends in the source), then extend with each function's
`parameterList()` in order. -/
def FunctionSetDescription.parameterList (fs : FunctionSetDescription) :
    List ParameterDescription :=
  fs.functions.foldl (fun params f => params ++ f.parameterList) [fs.x0, fs.y0]

/-- Embeds `FunctionSetDescription.__eq__` (lines 421–426). -/
def FunctionSetDescription.eq (a b : FunctionSetDescription) : Bool :=
  a.name == b.name && ParameterDescription.eq a.x0 b.x0 &&
    ParameterDescription.eq a.y0 b.y0 &&
    listEqBy FunctionDescription.eq a.functions b.functions

/-- Embeds `FunctionSetDescription.__deepcopy__` (lines 437–442): a new set
with `copy(x0)`, `copy(y0)` and `deepcopy(_functions)`. -/
def FunctionSetDescription.deepcopy (fs : FunctionSetDescription) :
    FunctionSetDescription :=
  { name := fs.name, x0 := fs.x0, y0 := fs.y0,
    functions := fs.functions.map FunctionDescription.deepcopy }

/-- Embeds `ModelDescription._contains` (lines 543–547). -/
def ModelDescription.containsName (m : ModelDescription) (name : String) : Bool :=
  m.functionSets.any (fun fs => fs.name == name)

/-- Embeds `ModelDescription.addFunctionSet` (lines 526–540): `ValueError`
unless the argument is a `FunctionSetDescription`, `KeyError` on a duplicate
label, else append.  Both raises happen before the append. -/
def ModelDescription.addFunctionSet (m : ModelDescription) (v : PyVal) :
    ModelDescription × Option PyErr :=
  match v with
  | .funcSet fs =>
    if m.containsName fs.name then
      (m, some (.keyError ("FunctionSet named " ++ fs.name ++ " already exists.")))
    else
      ({ m with functionSets := m.functionSets ++ [fs] }, none)
  | _ => (m, some (.valueError "fs is not a FunctionSet object."))

/-- Embeds `ModelDescription.functionSetIndices` (lines 550–559): starts
from `[0]` and, for each `i` in `range(len(_functionSets) - 1)`, appends
`len(self._functionSets[i].functionList())` — the per-set function count,
not a running sum. -/
def ModelDescription.functionSetIndices (m : ModelDescription) : List Nat :=
  (List.range (m.functionSets.length - 1)).foldl
    (fun indices i => indices ++ [(m.functionSets.getD i default).functionList.length])
    [0]

/-- Embeds `ModelDescription.functionList` (lines 562–574). -/
def ModelDescription.functionList (m : ModelDescription) : List String :=
  m.functionSets.foldl (fun fns fs => fns ++ fs.functionList) []

/-- Embeds `ModelDescription.parameterList` (lines 577–589). -/
def ModelDescription.parameterList (m : ModelDescription) :
    List ParameterDescription :=
  m.functionSets.foldl (fun params fs => params ++ fs.parameterList) []

/-- Embeds `ModelDescription.getRawParameters` (lines 592–601). -/
def ModelDescription.getRawParameters (m : ModelDescription) : List ℚ :=
  m.parameterList.map (fun p => p.value)

/-- Embeds `ModelDescription.getParameterLimits` (lines 604–614). -/
def ModelDescription.getParameterLimits (m : ModelDescription) :
    List (Option (ℚ × ℚ)) :=
  m.parameterList.map (fun p => p.limits)

/-- Embeds `ModelDescription.__eq__` (lines 617–621): compares the `options`
dict and the `_functionSets` list. -/
def ModelDescription.eq (a b : ModelDescription) : Bool :=
  dictEq a.options b.options &&
    listEqBy FunctionSetDescription.eq a.functionSets b.functionSets

/-- Embeds `ModelDescription.__deepcopy__` (lines 645–648): `type(self)()`
re-runs `__init__` with no arguments, so `options` comes out empty; then
`_functionSets` is replaced by a deep copy of the source's list. -/
def ModelDescription.deepcopy (m : ModelDescription) : ModelDescription :=
  { options := [], functionSets := m.functionSets.map FunctionSetDescription.deepcopy }

/-- Embeds `SimpleModelDescription.addFunctionSet` (lines 715–718): raises a
bare `Exception` once a set is already present, before delegating to the
superclass method. -/
def SimpleModelDescription.addFunctionSet (s : SimpleModelDescription) (v : PyVal) :
    SimpleModelDescription × Option PyErr :=
  if 1 ≤ s.toModel.functionSets.length then
    (s, some (.exception "Only one function set allowed."))
  else
    match s.toModel.addFunctionSet v with
    | (m2, e) => (⟨m2⟩, e)

/-- Embeds `SimpleModelDescription.__init__` (lines 671–680):
`super().__init__()` gives empty options and no sets; a `ModelDescription`
argument must have exactly one function set (`ValueError` otherwise), which
is added as `copy(inst._functionSets[0])` (at value level the same set); a
`None` argument adds a default `FunctionSetDescription('fs')`; anything else
is a `ValueError`. -/
def SimpleModelDescription.init (inst : Option PyVal) :
    Except PyErr SimpleModelDescription :=
  let empty : SimpleModelDescription := ⟨{ options := [], functionSets := [] }⟩
  match inst with
  | some (.model m) =>
    if m.functionSets.length ≠ 1 then
      .error (.valueError "Original model must have only one function set.")
    else
      match empty.addFunctionSet (.funcSet (m.functionSets.getD 0 default)) with
      | (s, none) => .ok s
      | (_, some e) => .error e
  | none =>
    match empty.addFunctionSet (.funcSet
        { name := "fs",
          x0 := { name := "X0", value := 0, limits := none, fixed := false },
          y0 := { name := "Y0", value := 0, limits := none, fixed := false },
          functions := [] }) with
    | (s, none) => .ok s
    | (_, some e) => .error e
  | some _ => .error (.valueError "Invalid type")

/-- Modelled from the spec: the starting offset, in function-count terms, of
each function set within the model's flattened function list (the cumulative
sum of the function counts of the preceding sets).  Used only to compare
`functionSetIndices` against the spec's description of it. -/
def functionSetStartOffsetsSpec (m : ModelDescription) : List Nat :=
  (List.range m.functionSets.length).map
    (fun i => ((m.functionSets.take i).map (fun fs => fs.functions.length)).sum)

/-! ## Heap-indexed model for aliasing claims

Python `ParameterDescription` objects are mutable and shared by reference.
To state the deep-copy-independence claim we give a second translation of the
same classes in which every `ParameterDescription` lives in a `Store` and the
containers hold references (`PRef`).  `copy.copy` of a parameter allocates a
fresh cell holding the same data; `copy.copy` of a `FunctionSetDescription`
(as used by `SimpleModelDescription.__init__`) copies the object's attribute
references, so the copy holds the very same `PRef`s as the source. -/

/-- A reference to a `ParameterDescription` object: an index into the store. -/
abbrev PRef := Nat

/-- The heap of allocated `ParameterDescription` objects. -/
abbrev Store := List ParameterDescription

/-- Heap-indexed `FunctionDescription`: its `_parameters` list holds
references. -/
structure HFunctionDescription where
  funcType : String
  name : String
  parameters : List PRef
deriving DecidableEq, Repr, Inhabited

/-- Heap-indexed `FunctionSetDescription`: `x0`, `y0` are references. -/
structure HFunctionSetDescription where
  name : String
  x0 : PRef
  y0 : PRef
  functions : List HFunctionDescription
deriving DecidableEq, Repr, Inhabited

/-- Heap-indexed `ModelDescription` (options play no role in the aliasing
claims and are omitted). -/
structure HModelDescription where
  functionSets : List HFunctionSetDescription
deriving DecidableEq, Repr, Inhabited

/-- `copy.copy(p)` on a `ParameterDescription`: allocate a fresh cell holding
the same field values, and return its reference. -/
def copyParam (st : Store) (r : PRef) : Store × PRef :=
  (st ++ [st.getD r default], st.length)

/-- Writing `p.value = v` through a reference (the optimizer's write-back
path): only the addressed cell changes. -/
def setParamValue (st : Store) (r : PRef) (v : ℚ) : Store :=
  st.set r { st.getD r default with value := v }

/-- One step of the list comprehension `[copy(p) for p in self._parameters]`:
copy the next parameter and append the fresh reference. -/
def copyParamStep (acc : Store × List PRef) (r : PRef) : Store × List PRef :=
  let c := copyParam acc.1 r
  (c.1, acc.2 ++ [c.2])

/-- Heap-indexed `FunctionDescription.__deepcopy__` (lines 293–296): a new
object with `copy(p)` of each parameter, in order. -/
def HFunctionDescription.deepcopy (st : Store) (f : HFunctionDescription) :
    Store × HFunctionDescription :=
  let res := f.parameters.foldl copyParamStep (st, [])
  (res.1, { funcType := f.funcType, name := f.name, parameters := res.2 })

/-- One step of `deepcopy(self._functions, memo)`: deep-copy the next
function and append it. -/
def deepcopyFunctionStep (acc : Store × List HFunctionDescription)
    (f : HFunctionDescription) : Store × List HFunctionDescription :=
  let c := HFunctionDescription.deepcopy acc.1 f
  (c.1, acc.2 ++ [c.2])

/-- Heap-indexed `FunctionSetDescription.__deepcopy__` (lines 437–442):
`copy(x0)`, `copy(y0)`, then deep-copy every function. -/
def HFunctionSetDescription.deepcopy (st : Store) (fs : HFunctionSetDescription) :
    Store × HFunctionSetDescription :=
  let cx := copyParam st fs.x0
  let cy := copyParam cx.1 fs.y0
  let res := fs.functions.foldl deepcopyFunctionStep (cy.1, [])
  (res.1, { name := fs.name, x0 := cx.2, y0 := cy.2, functions := res.2 })

/-- One step of `deepcopy(self._functionSets, memo)`: deep-copy the next
function set and append it. -/
def deepcopyFunctionSetStep (acc : Store × List HFunctionSetDescription)
    (fs : HFunctionSetDescription) : Store × List HFunctionSetDescription :=
  let c := HFunctionSetDescription.deepcopy acc.1 fs
  (c.1, acc.2 ++ [c.2])

/-- Heap-indexed `ModelDescription.__deepcopy__` (lines 645–648): deep-copy
every function set. -/
def HModelDescription.deepcopy (st : Store) (m : HModelDescription) :
    Store × HModelDescription :=
  let res := m.functionSets.foldl deepcopyFunctionSetStep (st, [])
  (res.1, { functionSets := res.2 })

/-- `copy.copy(fs)` on a `FunctionSetDescription`, as
`SimpleModelDescription.__init__` (line 676) uses it: a new object whose
`__dict__` is copied shallowly, so `x0`, `y0` and every function's parameter
references are THE SAME as the source's. -/
def shallowCopyFunctionSet (fs : HFunctionSetDescription) : HFunctionSetDescription :=
  { name := fs.name, x0 := fs.x0, y0 := fs.y0, functions := fs.functions }

/-- Heap-indexed `SimpleModelDescription.__init__` restricted to the
copy-construction branch (lines 673–676): a one-set source is required, and
the single set is added as `copy(inst._functionSets[0])` — a shallow copy. -/
def hSimpleFromModel (st : Store) (m : HModelDescription) :
    Store × Except PyErr HModelDescription :=
  if m.functionSets.length ≠ 1 then
    (st, .error (.valueError "Original model must have only one function set."))
  else
    (st, .ok { functionSets := [shallowCopyFunctionSet (m.functionSets.getD 0 default)] })

/-- The references of all `ParameterDescription` objects a function owns. -/
def HFunctionDescription.paramRefs (f : HFunctionDescription) : List PRef :=
  f.parameters

/-- The references of all `ParameterDescription` objects a function set owns
(`x0`, `y0`, then each function's parameters). -/
def HFunctionSetDescription.paramRefs (fs : HFunctionSetDescription) : List PRef :=
  fs.x0 :: fs.y0 :: (fs.functions.map HFunctionDescription.paramRefs).flatten

/-- The references of all `ParameterDescription` objects a model owns. -/
def HModelDescription.paramRefs (m : HModelDescription) : List PRef :=
  (m.functionSets.map HFunctionSetDescription.paramRefs).flatten

/-! ## Concrete instances used by the claims -/

/-- The spec's concrete scenario (§8): one function set at (10, 20), one
Gaussian with PA = 0 fixed, I_0 = 100 bounded (50, 150), sigma = 2, built
through the translated constructors. -/
def gaussianModel : Except PyErr ModelDescription := do
  let pa ← ParameterDescription.init "PA" 0 none none true
  let i0 ← ParameterDescription.init "I_0" 100 (some (.inl 50)) (some 150) false
  let sg ← ParameterDescription.init "sigma" 2 none none false
  let gf ← FunctionDescription.init "Gaussian" none [.param pa, .param i0, .param sg]
  let x0 ← ParameterDescription.init "X0" 10 none none false
  let y0 ← ParameterDescription.init "Y0" 20 none none false
  let fs ← FunctionSetDescription.init "fs0" (some x0) (some y0) [.func gf]
  match ModelDescription.addFunctionSet { options := [], functionSets := [] } (.funcSet fs) with
  | (m, none) => return m
  | (_, some e) => throw e

/-- A parameterless function of the given type (label defaulted). -/
def bareFunction (t : String) : FunctionDescription :=
  { funcType := t, name := t, parameters := [] }

/-- An unbounded default-position parameter. -/
def freeParam (n : String) (v : ℚ) : ParameterDescription :=
  { name := n, value := v, limits := none, fixed := false }

/-- A model whose three function sets hold 2, 3 and 1 functions — the spec's
`functionSetIndices` example. -/
def m231 : ModelDescription :=
  { options := [],
    functionSets :=
      [ { name := "s0", x0 := freeParam "X0" 0, y0 := freeParam "Y0" 0,
          functions := [bareFunction "A", bareFunction "B"] },
        { name := "s1", x0 := freeParam "X0" 0, y0 := freeParam "Y0" 0,
          functions := [bareFunction "C", bareFunction "D", bareFunction "E"] },
        { name := "s2", x0 := freeParam "X0" 0, y0 := freeParam "Y0" 0,
          functions := [bareFunction "F"] } ] }

/-- A concrete store for the aliasing counterexample: `X0` at reference 0,
`Y0` at 1, one function parameter at 2. -/
def exStore : Store :=
  [freeParam "X0" 10, freeParam "Y0" 20, freeParam "sigma" 2]

/-- A concrete heap-indexed one-set model over `exStore`. -/
def exModel : HModelDescription :=
  { functionSets :=
      [ { name := "fs0", x0 := 0, y0 := 1,
          functions := [{ funcType := "Gaussian", name := "Gaussian", parameters := [2] }] } ] }

/-- A concrete function set used to instantiate the add-operation claims. -/
def exFs : FunctionSetDescription :=
  { name := "fs0", x0 := freeParam "X0" 0, y0 := freeParam "Y0" 0,
    functions := [bareFunction "disk"] }

/-! ## General lemmas about the accumulating loops -/

theorem foldl_append_eq {α β : Type} (l : List α) (g : α → List β) (init : List β) :
    l.foldl (fun acc x => acc ++ g x) init = init ++ (l.map g).flatten := by
  induction l generalizing init with
  | nil => simp
  | cons x xs ih => simp [ih, List.append_assoc]

theorem flatten_map_singleton {α β : Type} (l : List α) (g : α → β) :
    (l.map (fun x => [g x])).flatten = l.map g := by
  induction l with
  | nil => rfl
  | cons x xs ih => simp [ih]

theorem range_map_getD {α β : Type} (l : List α) (d : α) (g : α → β) (n : Nat)
    (hn : n ≤ l.length) :
    (List.range n).map (fun i => g (l.getD i d)) = (l.take n).map g := by
  induction n with
  | zero => simp
  | succ k ih =>
    have hkl : k < l.length := Nat.lt_of_succ_le hn
    rw [List.range_succ, List.map_append, ih (Nat.le_of_succ_le hn), List.take_succ,
      List.map_append]
    congr 1
    simp [List.getElem?_eq_getElem hkl, List.getD_eq_getElem l d hkl]

/-! ## Theorems for the claims -/

/-- Claim C2, counterexample.  The claim states that `functionSetIndices()`
returns the starting offset, in function-count terms, of each function set
within the flattened function list, and that for sets with [2, 3, 1]
functions the result equals [0, 2, 3].  On `m231` (sets of 2, 3 and 1
functions) the code returns [0, 2, 3], but the starting offsets in the
flattened function list are [0, 2, 5]: the two halves of the claim
contradict each other, so the claim as stated is false. -/
theorem C2_counterexample :
    m231.functionSetIndices = [0, 2, 3] ∧
    functionSetStartOffsetsSpec m231 = [0, 2, 5] ∧
    m231.functionSetIndices ≠ functionSetStartOffsetsSpec m231 := by
  decide

/-- Claim C2, amended: `functionSetIndices()` returns `[0]` followed by the
function count of each set other than the last (the loop appends
`len(functionsThisSet)` instead of a running sum, so for three or more sets
these are not the cumulative starting offsets); the first element is always
0, and for sets of [2, 3, 1] functions the result is [0, 2, 3]. -/
theorem C2_amended :
    (∀ m : ModelDescription,
      m.functionSetIndices =
        0 :: m.functionSets.dropLast.map (fun fs => fs.functionList.length)) ∧
    (∀ m : ModelDescription, m.functionSetIndices.head? = some 0) ∧
    m231.functionSetIndices = [0, 2, 3] := by
  have key : ∀ m : ModelDescription,
      m.functionSetIndices =
        0 :: m.functionSets.dropLast.map (fun fs => fs.functionList.length) := by
    intro m
    unfold ModelDescription.functionSetIndices
    rw [foldl_append_eq, flatten_map_singleton,
      range_map_getD m.functionSets default
        (fun fs => fs.functionList.length) (m.functionSets.length - 1)
        (Nat.sub_le _ _),
      List.dropLast_eq_take]
    rfl
  refine ⟨key, fun m => ?_, by decide⟩
  rw [key m]
  rfl

/-- Claim C5, counterexample.  The claim states that `setTolerance(0)` must
be rejected; the code accepts `tol = 0` (the guard is `tol > 1.0 or
tol < 0.0`) and sets degenerate equal limits `(value, value)`. -/
theorem C5_counterexample :
    (ParameterDescription.init "p" 1 none none false).bind
        (fun p => p.setTolerance 0) =
      .ok { name := "p", value := 1, limits := some (1, 1), fixed := false } := by
  norm_num [ParameterDescription.init, ParameterDescription.setValue,
    ParameterDescription.setTolerance, Except.bind]

/-- Claim C5, amended: `setTolerance(tol)` fails with `InvalidArgument`
(Python `ValueError`) exactly when `tol < 0` or `tol > 1`; for every
`tol ∈ [0, 1]` it sets limits to exactly
`(value*(1 - tol), value*(1 + tol))` — in particular `tol = 0` is accepted
and yields degenerate equal bounds rather than being rejected. -/
theorem C5_amended :
    ∀ (p : ParameterDescription) (tol : ℚ),
      ((∃ e, p.setTolerance tol = .error e) ↔ tol > 1 ∨ tol < 0) ∧
      (0 ≤ tol → tol ≤ 1 →
        p.setTolerance tol =
          .ok { p with limits := some (p.value * (1 - tol), p.value * (1 + tol)) }) := by
  intro p tol
  unfold ParameterDescription.setTolerance
  constructor
  · constructor
    · rintro ⟨e, he⟩
      by_contra hcon
      rw [if_neg hcon] at he
      exact Except.noConfusion he
    · intro h
      rw [if_pos h]
      exact ⟨_, rfl⟩
  · intro h0 h1
    rw [if_neg (by push_neg; exact ⟨h1, h0⟩)]

/-- Claim C5, witness: the amended equalities evaluated at a concrete entry
and tolerance (value 2, tolerance 1/4). -/
theorem C5_witness :
    ParameterDescription.setTolerance (freeParam "p" 2) (1/4) =
      .ok { freeParam "p" 2 with limits := some (2 * (1 - 1/4), 2 * (1 + 1/4)) } :=
  (C5_amended (freeParam "p" 2) (1/4)).2 (by norm_num) (by norm_num)

/-- Claim C9: `ParameterDescription.__eq__` compares exactly the name, value
and limits tuple; the `fixed` flag does not participate, so two entries
differing only in `fixed` compare equal. -/
theorem C9 :
    (∀ a b : ParameterDescription,
      ParameterDescription.eq a b = true ↔
        a.name = b.name ∧ a.value = b.value ∧ a.limits = b.limits) ∧
    (∀ (p : ParameterDescription) (f1 f2 : Bool),
      ParameterDescription.eq { p with fixed := f1 } { p with fixed := f2 } = true) := by
  constructor
  · intro a b
    simp [ParameterDescription.eq, and_assoc]
  · intro p f1 f2
    simp [ParameterDescription.eq]

/-- Claim C9, witness: two concrete entries differing only in the fixed flag
compare equal. -/
theorem C9_witness :
    ParameterDescription.eq
      { name := "a", value := 1, limits := none, fixed := false }
      { name := "a", value := 1, limits := none, fixed := true } = true :=
  C9.2 { name := "a", value := 1, limits := none, fixed := false } false true

/-- When the clamped bounds are strictly ordered, the clamp block of
`setValue` leaves the value inside them. -/
theorem clampToValue_spec (value lo hi : ℚ)
    (h : (clampToValue value lo hi).1 < (clampToValue value lo hi).2) :
    (clampToValue value lo hi).1 ≤ value ∧ value ≤ (clampToValue value lo hi).2 := by
  unfold clampToValue at h ⊢
  split_ifs at h ⊢ with h1 h2
  · exact ⟨le_refl _, le_of_lt h⟩
  · exact ⟨le_of_not_lt h1, le_refl _⟩
  · exact ⟨le_of_not_lt h1, le_of_not_lt h2⟩

/-- Claim C1, counterexample.  The claim asserts that after any non-raising
operation sequence a present limits pair satisfies `lower < upper` and
`lower ≤ value ≤ upper`, naming two scenarios.  Both fail: `setTolerance(1/2)`
on an entry of value −1 succeeds and leaves limits (−1/2, −3/2) with
lower > upper; and `setValue(5)` with no bounds on an entry limited to (0, 2)
succeeds and leaves value 5 above the untouched upper limit 2. -/
theorem C1_counterexample :
    (ParameterDescription.init "p" (-1) none none false).bind
        (fun p => p.setTolerance (1/2)) =
      .ok { name := "p", value := -1, limits := some (-(1/2), -(3/2)), fixed := false } ∧
    ¬ ((-(1/2) : ℚ) < -(3/2)) ∧
    (ParameterDescription.init "q" 1 (some (.inl 0)) (some 2) false).bind
        (fun p => p.setValue 5 none none false) =
      .ok { name := "q", value := 5, limits := some (0, 2), fixed := false } ∧
    ¬ ((5 : ℚ) ≤ 2) := by
  refine ⟨?_, by norm_num, by decide, by norm_num⟩
  norm_num [ParameterDescription.init, ParameterDescription.setValue,
    ParameterDescription.setTolerance, Except.bind]

/-- Claim C1, amended.  `setValue` with both bounds and `setLimits` do
establish the invariant on success (the offending bound is clamped to the
value); but `setTolerance` performs no clamping and no ordering check, so on
an entry with negative value any positive tolerance produces an inverted
pair with upper < lower; and `setValue` without bounds keeps the previous
limits unchanged even when the new value lies outside them. -/
theorem C1_amended :
    (∀ (p p2 : ParameterDescription) (value lo hi : ℚ) (fx : Bool),
      p.setValue value (some (.inl lo)) (some hi) fx = .ok p2 →
      p2.value = value ∧
      ∃ l u, p2.limits = some (l, u) ∧ l < u ∧ l ≤ value ∧ value ≤ u) ∧
    (∀ (p p2 : ParameterDescription) (v1 v2 : ℚ),
      p.setLimits v1 v2 = .ok p2 →
      p2.value = p.value ∧
      ∃ l u, p2.limits = some (l, u) ∧ l < u ∧ l ≤ p.value ∧ p.value ≤ u) ∧
    (∀ (p p2 : ParameterDescription) (tol : ℚ),
      p.value < 0 → 0 < tol → p.setTolerance tol = .ok p2 →
      ∃ l u, p2.limits = some (l, u) ∧ u < l) ∧
    (∀ (p : ParameterDescription) (value : ℚ) (vmax : Option ℚ) (fx : Bool),
      p.setValue value none vmax fx = .ok { p with value := value, fixed := fx }) := by
  refine ⟨?_, ?_, ?_, ?_⟩
  · intro p p2 value lo hi fx h
    simp only [ParameterDescription.setValue] at h
    split at h
    · simp at h
    · rename_i hge
      have hlt : (clampToValue value lo hi).1 < (clampToValue value lo hi).2 :=
        lt_of_not_ge hge
      injection h with h2
      subst h2
      obtain ⟨hl, hu⟩ := clampToValue_spec value lo hi hlt
      exact ⟨rfl, (clampToValue value lo hi).1, (clampToValue value lo hi).2,
        by rw [Prod.mk.eta], hlt, hl, hu⟩
  · intro p p2 v1 v2 h
    simp only [ParameterDescription.setLimits] at h
    split at h
    · simp at h
    · rename_i hge
      have hv : v1 < v2 := lt_of_not_ge hge
      injection h with h2
      subst h2
      refine ⟨rfl, ?_⟩
      split_ifs with hA hB
      · exact ⟨p.value, v2, rfl, by linarith, le_refl _, by linarith⟩
      · exact ⟨v1, p.value, rfl, by linarith [le_of_not_lt hA], by linarith [le_of_not_lt hA], le_refl _⟩
      · exact ⟨v1, v2, rfl, hv, le_of_not_lt hA, le_of_not_lt hB⟩
  · intro p p2 tol hneg htol h
    simp only [ParameterDescription.setTolerance] at h
    split at h
    · simp at h
    · injection h with h2
      subst h2
      refine ⟨p.value * (1 - tol), p.value * (1 + tol), rfl, ?_⟩
      have hvt : p.value * tol < 0 := mul_neg_of_neg_of_pos hneg htol
      nlinarith
  · intro p value vmax fx
    rfl

/-- Claim C1, witness: the amended setValue-with-bounds conclusion at the
concrete call `setValue(1, 0, 2)`. -/
theorem C1_witness :
    ({ name := "w", value := 1, limits := some (0, 2), fixed := false } :
        ParameterDescription).value = 1 ∧
    ∃ l u, ({ name := "w", value := 1, limits := some (0, 2), fixed := false } :
        ParameterDescription).limits = some (l, u) ∧
      l < u ∧ l ≤ 1 ∧ (1 : ℚ) ≤ u :=
  C1_amended.1 (freeParam "w" 1)
    { name := "w", value := 1, limits := some (0, 2), fixed := false } 1 0 2 false
    (by decide)

/-- Claim C3, counterexample.  The claim states that `setValue` fails with
`InvalidBounds` whenever exactly one scalar bound is supplied without the
other, the lone upper bound included; but when `vmin is None` the code skips
the whole limits block, so a lone `vmax = 5` is silently ignored and the
call succeeds with no limits set. -/
theorem C3_counterexample :
    (ParameterDescription.init "p" 1 none none false).bind
        (fun p => p.setValue 1 none (some 5) false) =
      .ok { name := "p", value := 1, limits := none, fixed := false } := by
  decide

/-- Claim C3, amended.  A lone scalar LOWER bound (vmin without vmax) fails
with `InvalidBounds` (Python `ValueError`) unless it is a two-element pair,
which is decomposed into (lower, upper); a lone UPPER bound (vmax without
vmin) is silently ignored — the call behaves as if no bounds were given;
with both bounds present, lower is clamped down to value when
value < lower, else upper is raised to value when value > upper, and the
call fails with `InvalidBounds` exactly when lower ≥ upper after
clamping. -/
theorem C3_amended :
    (∀ (p : ParameterDescription) (value lo : ℚ) (fx : Bool),
      p.setValue value (some (.inl lo)) none fx =
        .error (.valueError "If vmax is None, vmin must be None or two-element iterable.")) ∧
    (∀ (p : ParameterDescription) (value : ℚ) (vmax : Option ℚ) (fx : Bool),
      p.setValue value none vmax fx = .ok { p with value := value, fixed := fx }) ∧
    (∀ (p : ParameterDescription) (value lo hi : ℚ) (fx : Bool),
      p.setValue value (some (.inr (lo, hi))) none fx =
        p.setValue value (some (.inl lo)) (some hi) fx) ∧
    (∀ (value lo hi : ℚ), value < lo → clampToValue value lo hi = (value, hi)) ∧
    (∀ (value lo hi : ℚ), ¬ value < lo → value > hi → clampToValue value lo hi = (lo, value)) ∧
    (∀ (p : ParameterDescription) (value lo hi : ℚ) (fx : Bool),
      (∃ e, p.setValue value (some (.inl lo)) (some hi) fx = .error e) ↔
        (clampToValue value lo hi).1 ≥ (clampToValue value lo hi).2) := by
  refine ⟨fun p value lo fx => rfl, fun p value vmax fx => rfl,
    fun p value lo hi fx => rfl, ?_, ?_, ?_⟩
  · intro value lo hi h
    unfold clampToValue
    rw [if_pos h]
  · intro value lo hi h1 h2
    unfold clampToValue
    rw [if_neg h1, if_pos h2]
  · intro p value lo hi fx
    simp only [ParameterDescription.setValue]
    constructor
    · rintro ⟨e, he⟩
      by_contra hcon
      rw [if_neg hcon] at he
      exact Except.noConfusion he
    · intro h
      rw [if_pos h]
      exact ⟨_, rfl⟩

/-- Claim C3, witness: a lone scalar lower bound at a concrete call. -/
theorem C3_witness :
    ParameterDescription.setValue (freeParam "p" 1) 1 (some (.inl 0)) none false =
      .error (.valueError "If vmax is None, vmin must be None or two-element iterable.") :=
  C3_amended.1 (freeParam "p" 1) 1 0 false

/-- Claim C4: `parameterList()` of a function set is `[x0, y0]` followed by
each function's parameters in order; a model concatenates these per set; and
on the spec's Gaussian scenario `getRawParameters()` is [10, 20, 0, 100, 2]
and `getParameterLimits()` is [None, None, None, (50, 150), None] — the
fixed PA parameter carries no limits while the bounded I_0 does. -/
theorem C4 :
    (∀ fs : FunctionSetDescription,
      fs.parameterList =
        fs.x0 :: fs.y0 :: (fs.functions.map FunctionDescription.parameterList).flatten) ∧
    (∀ m : ModelDescription,
      m.parameterList = (m.functionSets.map FunctionSetDescription.parameterList).flatten) ∧
    gaussianModel.map ModelDescription.getRawParameters = .ok [10, 20, 0, 100, 2] ∧
    gaussianModel.map ModelDescription.getParameterLimits =
      .ok [none, none, none, some (50, 150), none] := by
  refine ⟨fun fs => ?_, fun m => ?_, by decide, by decide⟩
  · unfold FunctionSetDescription.parameterList
    rw [foldl_append_eq]
    rfl
  · unfold ModelDescription.parameterList
    rw [foldl_append_eq]
    rfl

/-- Claim C7: constructing a `SimpleModelDescription` from a model without
exactly one function set fails with `InvalidArgument` (Python `ValueError`),
and adding a function set to a `SimpleModelDescription` that already holds a
set fails with `CapacityExceeded` (Python's bare `Exception`); in the latter
case the returned state is the receiver unchanged. -/
theorem C7 :
    (∀ m : ModelDescription, m.functionSets.length ≠ 1 →
      SimpleModelDescription.init (some (.model m)) =
        .error (.valueError "Original model must have only one function set.")) ∧
    (∀ (s : SimpleModelDescription) (v : PyVal), 1 ≤ s.toModel.functionSets.length →
      s.addFunctionSet v = (s, some (.exception "Only one function set allowed."))) := by
  constructor
  · intro m h
    simp only [SimpleModelDescription.init]
    rw [if_pos h]
  · intro s v h
    simp only [SimpleModelDescription.addFunctionSet]
    rw [if_pos h]

/-- Claim C7, witness: the two failures at concrete inputs (the three-set
model `m231`; a one-set simple model). -/
theorem C7_witness :
    SimpleModelDescription.init (some (.model m231)) =
      .error (.valueError "Original model must have only one function set.") ∧
    SimpleModelDescription.addFunctionSet
        ⟨{ options := [], functionSets := [exFs] }⟩ (.num 3) =
      (⟨{ options := [], functionSets := [exFs] }⟩,
        some (.exception "Only one function set allowed.")) :=
  ⟨C7.1 m231 (by decide),
   C7.2 ⟨{ options := [], functionSets := [exFs] }⟩ (.num 3) (by decide)⟩

/-- Claim C8: `addFunction` fails with `TypeMismatch` (Python `ValueError`)
on a non-function argument and with `DuplicateName` (Python `KeyError`) on a
duplicate label, leaving the set unchanged, and appends at the end on
success; `ModelDescription.addFunctionSet` behaves analogously. -/
theorem C8 :
    (∀ (fs : FunctionSetDescription) (v : PyVal), (∀ f, v ≠ .func f) →
      fs.addFunction v = (fs, some (.valueError "func is not a Function object."))) ∧
    (∀ (fs : FunctionSetDescription) (f : FunctionDescription),
      fs.containsName f.name = true →
      fs.addFunction (.func f) =
        (fs, some (.keyError ("Function named " ++ f.name ++ " already exists.")))) ∧
    (∀ (fs : FunctionSetDescription) (f : FunctionDescription),
      fs.containsName f.name = false →
      fs.addFunction (.func f) = ({ fs with functions := fs.functions ++ [f] }, none)) ∧
    (∀ (m : ModelDescription) (v : PyVal), (∀ fs, v ≠ .funcSet fs) →
      m.addFunctionSet v = (m, some (.valueError "fs is not a FunctionSet object."))) ∧
    (∀ (m : ModelDescription) (fs : FunctionSetDescription),
      m.containsName fs.name = true →
      m.addFunctionSet (.funcSet fs) =
        (m, some (.keyError ("FunctionSet named " ++ fs.name ++ " already exists.")))) ∧
    (∀ (m : ModelDescription) (fs : FunctionSetDescription),
      m.containsName fs.name = false →
      m.addFunctionSet (.funcSet fs) =
        ({ m with functionSets := m.functionSets ++ [fs] }, none)) := by
  refine ⟨?_, ?_, ?_, ?_, ?_, ?_⟩
  · intro fs v hv
    cases v with
    | func f => exact absurd rfl (hv f)
    | param p => rfl
    | funcSet x => rfl
    | model x => rfl
    | num q => rfl
    | str s => rfl
  · intro fs f h
    simp only [FunctionSetDescription.addFunction]
    rw [if_pos h]
  · intro fs f h
    simp only [FunctionSetDescription.addFunction]
    rw [if_neg (by simp [h])]
  · intro m v hv
    cases v with
    | funcSet x => exact absurd rfl (hv x)
    | param p => rfl
    | func f => rfl
    | model x => rfl
    | num q => rfl
    | str s => rfl
  · intro m fs h
    simp only [ModelDescription.addFunctionSet]
    rw [if_pos h]
  · intro m fs h
    simp only [ModelDescription.addFunctionSet]
    rw [if_neg (by simp [h])]

/-- Claim C8, witness: the failures and non-mutation at concrete inputs
(a number instead of a function; re-adding the "disk" function; re-adding
the "fs0" set). -/
theorem C8_witness :
    FunctionSetDescription.addFunction exFs (.num 3) =
      (exFs, some (.valueError "func is not a Function object.")) ∧
    FunctionSetDescription.addFunction exFs (.func (bareFunction "disk")) =
      (exFs, some (.keyError ("Function named " ++ "disk" ++ " already exists."))) ∧
    ModelDescription.addFunctionSet { options := [], functionSets := [exFs] }
        (.funcSet exFs) =
      ({ options := [], functionSets := [exFs] },
        some (.keyError ("FunctionSet named " ++ "fs0" ++ " already exists."))) :=
  ⟨C8.1 exFs (.num 3) (fun f hf => PyVal.noConfusion hf),
   C8.2.1 exFs (bareFunction "disk") (by decide),
   C8.2.2.2.2.1 { options := [], functionSets := [exFs] } exFs (by decide)⟩

/-- A deep copy of a `FunctionDescription` has the same field values. -/
theorem funcDeepcopy_eq_self (f : FunctionDescription) :
    f.deepcopy = f := by
  cases f with
  | mk t n ps => simp [FunctionDescription.deepcopy]

theorem map_funcDeepcopy_eq_self (l : List FunctionDescription) :
    l.map FunctionDescription.deepcopy = l := by
  induction l with
  | nil => rfl
  | cons x xs ih => simp [ih, funcDeepcopy_eq_self]

/-- A deep copy of a `FunctionSetDescription` has the same field values. -/
theorem fsDeepcopy_eq_self (fs : FunctionSetDescription) :
    fs.deepcopy = fs := by
  cases fs with
  | mk n x y fns => simp [FunctionSetDescription.deepcopy, map_funcDeepcopy_eq_self]

theorem map_fsDeepcopy_eq_self (l : List FunctionSetDescription) :
    l.map FunctionSetDescription.deepcopy = l := by
  induction l with
  | nil => rfl
  | cons x xs ih => simp [ih, fsDeepcopy_eq_self]

/-- Claim C10: `ModelDescription.__deepcopy__` rebuilds the model through
`type(self)()`, so the copy's options dict is empty whatever the source
held; hence a source with non-empty options is NOT equal (under
`__eq__`, which compares options) to its own deep copy, while the
function-set structure is preserved (the copied sets have equal field
values). -/
theorem C10 :
    ∀ m : ModelDescription,
      m.deepcopy.options = [] ∧
      m.deepcopy.functionSets = m.functionSets ∧
      (m.options ≠ [] → ModelDescription.eq m.deepcopy m = false) := by
  intro m
  have hsets : m.deepcopy.functionSets = m.functionSets := map_fsDeepcopy_eq_self _
  refine ⟨rfl, hsets, ?_⟩
  intro hne
  obtain ⟨kv, tl, hopt⟩ := List.exists_cons_of_ne_nil hne
  have hd : dictEq m.deepcopy.options m.options = false := by
    show dictEq [] m.options = false
    rw [hopt]
    simp [dictEq, List.lookup]
  simp [ModelDescription.eq, hd]

/-- Claim C10, witness: a model holding the option GAIN = 9/2 is not equal
to its deep copy. -/
theorem C10_witness :
    ModelDescription.eq
      (ModelDescription.deepcopy { options := [("GAIN", 9/2)], functionSets := [] })
      { options := [("GAIN", 9/2)], functionSets := [] } = false :=
  (C10 { options := [("GAIN", 9/2)], functionSets := [] }).2.2 (by decide)

/-! ## Freshness of the heap-indexed deep copies -/

theorem getD_append_left {α : Type} (l ext : List α) (n : Nat) (d : α)
    (h : n < l.length) : (l ++ ext).getD n d = l.getD n d := by
  simp [List.getD_eq_getD_get?, List.get?_eq_getElem?, List.getElem?_append_left h]

theorem getD_set_ne {α : Type} (l : List α) (i j : Nat) (a d : α) (h : i ≠ j) :
    (l.set i a).getD j d = l.getD j d := by
  simp [List.getD_eq_getD_get?, List.get?_eq_getElem?, List.getElem?_set_ne h]

/-- The parameter-copy loop only appends to the store, and every reference
it emits is fresh: at least the starting length, below the final length. -/
theorem copyFold_extends_fresh (rs : List PRef) (st0 : Store) (ps0 : List PRef) :
    ∃ ext, (rs.foldl copyParamStep (st0, ps0)).1 = st0 ++ ext ∧
      ∀ r ∈ (rs.foldl copyParamStep (st0, ps0)).2,
        r ∈ ps0 ∨ (st0.length ≤ r ∧ r < (rs.foldl copyParamStep (st0, ps0)).1.length) := by
  induction rs generalizing st0 ps0 with
  | nil => exact ⟨[], by simp, fun r hr => Or.inl hr⟩
  | cons a rs ih =>
    rw [List.foldl_cons]
    have hstep : copyParamStep (st0, ps0) a =
        (st0 ++ [st0.getD a default], ps0 ++ [st0.length]) := rfl
    rw [hstep]
    obtain ⟨ext, hext, hfresh⟩ := ih (st0 ++ [st0.getD a default]) (ps0 ++ [st0.length])
    refine ⟨[st0.getD a default] ++ ext, by rw [hext, List.append_assoc], ?_⟩
    intro r hr
    rcases hfresh r hr with hmem | ⟨hge, hlt⟩
    · rcases List.mem_append.1 hmem with hmem2 | hmem2
      · exact Or.inl hmem2
      · have hreq : r = st0.length := by simpa using hmem2
        subst hreq
        refine Or.inr ⟨le_refl _, ?_⟩
        rw [hext]
        simp only [List.length_append, List.length_cons, List.length_nil]
        exact Nat.lt_add_right _ (Nat.lt_succ_self _)
    · refine Or.inr ⟨?_, hlt⟩
      calc st0.length ≤ (st0 ++ [st0.getD a default]).length := by simp
        _ ≤ r := hge

/-- `FunctionDescription.__deepcopy__` only appends to the store and every
parameter of the copy is a fresh reference. -/
theorem hFunctionDeepcopy_spec (st : Store) (f : HFunctionDescription) :
    ∃ ext, (HFunctionDescription.deepcopy st f).1 = st ++ ext ∧
      ∀ r ∈ (HFunctionDescription.deepcopy st f).2.paramRefs,
        st.length ≤ r ∧ r < (HFunctionDescription.deepcopy st f).1.length := by
  obtain ⟨ext, hext, hfresh⟩ := copyFold_extends_fresh f.parameters st []
  refine ⟨ext, hext, ?_⟩
  intro r hr
  have hr2 : r ∈ (f.parameters.foldl copyParamStep (st, ([] : List PRef))).2 := hr
  rcases hfresh r hr2 with hmem | h
  · exact absurd hmem (List.not_mem_nil r)
  · exact h

/-- The function-copy loop only appends to the store and every parameter of
the copied functions is fresh. -/
theorem funcFold_extends_fresh (fl : List HFunctionDescription) (st0 : Store)
    (acc0 : List HFunctionDescription) :
    ∃ ext, (fl.foldl deepcopyFunctionStep (st0, acc0)).1 = st0 ++ ext ∧
      ∀ r ∈ ((fl.foldl deepcopyFunctionStep (st0, acc0)).2.map
          HFunctionDescription.paramRefs).flatten,
        r ∈ (acc0.map HFunctionDescription.paramRefs).flatten ∨
          (st0.length ≤ r ∧ r < (fl.foldl deepcopyFunctionStep (st0, acc0)).1.length) := by
  induction fl generalizing st0 acc0 with
  | nil => exact ⟨[], by simp, fun r hr => Or.inl hr⟩
  | cons f fl ih =>
    rw [List.foldl_cons]
    have hstep : deepcopyFunctionStep (st0, acc0) f =
        ((HFunctionDescription.deepcopy st0 f).1,
          acc0 ++ [(HFunctionDescription.deepcopy st0 f).2]) := rfl
    rw [hstep]
    obtain ⟨e1, he1, hf1⟩ := hFunctionDeepcopy_spec st0 f
    obtain ⟨ext, hext, hfresh⟩ := ih (HFunctionDescription.deepcopy st0 f).1
      (acc0 ++ [(HFunctionDescription.deepcopy st0 f).2])
    refine ⟨e1 ++ ext, by rw [hext, he1, List.append_assoc], ?_⟩
    intro r hr
    rcases hfresh r hr with hmem | ⟨hge, hlt⟩
    · rw [List.map_append, List.flatten_append] at hmem
      rcases List.mem_append.1 hmem with hmem2 | hmem2
      · exact Or.inl hmem2
      · have hr3 : r ∈ (HFunctionDescription.deepcopy st0 f).2.paramRefs := by
          simpa using hmem2
        obtain ⟨hge1, hlt1⟩ := hf1 r hr3
        refine Or.inr ⟨hge1, ?_⟩
        rw [hext]
        calc r < (HFunctionDescription.deepcopy st0 f).1.length := hlt1
          _ ≤ ((HFunctionDescription.deepcopy st0 f).1 ++ ext).length := by simp
    · refine Or.inr ⟨?_, hlt⟩
      calc st0.length ≤ (HFunctionDescription.deepcopy st0 f).1.length := by
            rw [he1]; simp
        _ ≤ r := hge

/-- `FunctionSetDescription.__deepcopy__` only appends to the store and
every parameter of the copy (x0, y0 and all function parameters) is a fresh
reference. -/
theorem hFunctionSetDeepcopy_spec (st : Store) (fs : HFunctionSetDescription) :
    ∃ ext, (HFunctionSetDescription.deepcopy st fs).1 = st ++ ext ∧
      ∀ r ∈ (HFunctionSetDescription.deepcopy st fs).2.paramRefs,
        st.length ≤ r ∧ r < (HFunctionSetDescription.deepcopy st fs).1.length := by
  obtain ⟨ext, hext, hfresh⟩ := funcFold_extends_fresh fs.functions
    (copyParam (copyParam st fs.x0).1 fs.y0).1 []
  have hcy : (copyParam (copyParam st fs.x0).1 fs.y0).1 =
      st ++ ([st.getD fs.x0 default] ++
        [(copyParam st fs.x0).1.getD fs.y0 default]) := by
    show (st ++ [st.getD fs.x0 default]) ++
        [(copyParam st fs.x0).1.getD fs.y0 default] = _
    rw [List.append_assoc]
  have hres1 : (HFunctionSetDescription.deepcopy st fs).1 =
      st ++ ([st.getD fs.x0 default] ++
        [(copyParam st fs.x0).1.getD fs.y0 default] ++ ext) := by
    show (fs.functions.foldl deepcopyFunctionStep
        ((copyParam (copyParam st fs.x0).1 fs.y0).1, [])).1 = _
    rw [hext, hcy, List.append_assoc]
  refine ⟨_, hres1, ?_⟩
  have hlen : st.length + 2 ≤ (HFunctionSetDescription.deepcopy st fs).1.length := by
    rw [hres1]
    simp only [List.length_append, List.length_cons, List.length_nil]
    omega
  have hcylen : (copyParam (copyParam st fs.x0).1 fs.y0).1.length = st.length + 2 := by
    rw [hcy]
    simp only [List.length_append, List.length_cons, List.length_nil]
  intro r hr
  have hr2 : r ∈ st.length :: (copyParam st fs.x0).1.length ::
      ((fs.functions.foldl deepcopyFunctionStep
        ((copyParam (copyParam st fs.x0).1 fs.y0).1, [])).2.map
          HFunctionDescription.paramRefs).flatten := hr
  have hxlen : (copyParam st fs.x0).1.length = st.length + 1 := by
    show (st ++ [st.getD fs.x0 default]).length = st.length + 1
    simp
  rcases List.mem_cons.1 hr2 with hreq | hr3
  · subst hreq
    exact ⟨le_refl _, lt_of_lt_of_le (Nat.lt_add_of_pos_right (by decide)) hlen⟩
  rcases List.mem_cons.1 hr3 with hreq | hr4
  · subst hreq
    constructor
    · rw [hxlen]
      exact Nat.le_add_right _ 1
    · rw [hxlen]
      exact lt_of_lt_of_le (Nat.add_lt_add_left (by decide) _) hlen
  rcases hfresh r hr4 with hmem | ⟨hge, hlt⟩
  · exact absurd hmem (by simp)
  · refine ⟨?_, hlt⟩
    have hge2 : st.length + 2 ≤ r := hcylen ▸ hge
    exact le_trans (Nat.le_add_right _ 2) hge2

/-- The set-copy loop only appends to the store and every parameter of the
copied sets is fresh. -/
theorem setFold_extends_fresh (sl : List HFunctionSetDescription) (st0 : Store)
    (acc0 : List HFunctionSetDescription) :
    ∃ ext, (sl.foldl deepcopyFunctionSetStep (st0, acc0)).1 = st0 ++ ext ∧
      ∀ r ∈ ((sl.foldl deepcopyFunctionSetStep (st0, acc0)).2.map
          HFunctionSetDescription.paramRefs).flatten,
        r ∈ (acc0.map HFunctionSetDescription.paramRefs).flatten ∨
          (st0.length ≤ r ∧ r < (sl.foldl deepcopyFunctionSetStep (st0, acc0)).1.length) := by
  induction sl generalizing st0 acc0 with
  | nil => exact ⟨[], by simp, fun r hr => Or.inl hr⟩
  | cons fs sl ih =>
    rw [List.foldl_cons]
    have hstep : deepcopyFunctionSetStep (st0, acc0) fs =
        ((HFunctionSetDescription.deepcopy st0 fs).1,
          acc0 ++ [(HFunctionSetDescription.deepcopy st0 fs).2]) := rfl
    rw [hstep]
    obtain ⟨e1, he1, hf1⟩ := hFunctionSetDeepcopy_spec st0 fs
    obtain ⟨ext, hext, hfresh⟩ := ih (HFunctionSetDescription.deepcopy st0 fs).1
      (acc0 ++ [(HFunctionSetDescription.deepcopy st0 fs).2])
    refine ⟨e1 ++ ext, by rw [hext, he1, List.append_assoc], ?_⟩
    intro r hr
    rcases hfresh r hr with hmem | ⟨hge, hlt⟩
    · rw [List.map_append, List.flatten_append] at hmem
      rcases List.mem_append.1 hmem with hmem2 | hmem2
      · exact Or.inl hmem2
      · have hr3 : r ∈ (HFunctionSetDescription.deepcopy st0 fs).2.paramRefs := by
          simpa using hmem2
        obtain ⟨hge1, hlt1⟩ := hf1 r hr3
        refine Or.inr ⟨hge1, ?_⟩
        rw [hext]
        calc r < (HFunctionSetDescription.deepcopy st0 fs).1.length := hlt1
          _ ≤ ((HFunctionSetDescription.deepcopy st0 fs).1 ++ ext).length := by simp
    · refine Or.inr ⟨?_, hlt⟩
      calc st0.length ≤ (HFunctionSetDescription.deepcopy st0 fs).1.length := by
            rw [he1]; simp
        _ ≤ r := hge

/-- `ModelDescription.__deepcopy__` only appends to the store and every
parameter of the copy is a fresh reference. -/
theorem hModelDeepcopy_spec (st : Store) (m : HModelDescription) :
    ∃ ext, (HModelDescription.deepcopy st m).1 = st ++ ext ∧
      ∀ r ∈ (HModelDescription.deepcopy st m).2.paramRefs,
        st.length ≤ r ∧ r < (HModelDescription.deepcopy st m).1.length := by
  obtain ⟨ext, hext, hfresh⟩ := setFold_extends_fresh m.functionSets st []
  refine ⟨ext, hext, ?_⟩
  intro r hr
  have hr2 : r ∈ ((m.functionSets.foldl deepcopyFunctionSetStep
      (st, ([] : List HFunctionSetDescription))).2.map
        HFunctionSetDescription.paramRefs).flatten := hr
  rcases hfresh r hr2 with hmem | h
  · exact absurd hmem (by simp)
  · exact h

/-- Claim C6, counterexample.  The claim includes copy-construction of a
`SimpleModelDescription` among the operations that must share no mutable
`ParameterEntry` with the source.  But `SimpleModelDescription.__init__`
uses `copy.copy` — a shallow copy — on the source's single function set, so
the clone's `x0` IS the source's `x0` (reference 0 below): writing value 99
through the clone's `x0` reference changes the source entry, whose value was
10. -/
theorem C6_counterexample :
    (hSimpleFromModel exStore exModel).2 = .ok { functionSets := exModel.functionSets } ∧
    (exModel.functionSets.getD 0 default).x0 = 0 ∧
    (exStore.getD 0 default).value = 10 ∧
    ((setParamValue exStore 0 99).getD 0 default).value = 99 := by
  decide

/-- Claim C6, amended.  Deep copies of a `FunctionDescription`,
`FunctionSetDescription` or `ModelDescription` allocate fresh parameter
objects disjoint from every source parameter (for a well-formed source whose
references lie inside the store); for a model, writing a value through any
clone reference leaves every source entry unchanged and vice versa.
Copy-construction of a `SimpleModelDescription`, however, shallow-copies the
source's single set: the clone holds exactly the same parameter references
(x0, y0 and every function parameter) as the source set, so value mutations
propagate both ways. -/
theorem C6_amended :
    (∀ (st : Store) (f : HFunctionDescription) (r rc : PRef),
      (∀ s ∈ f.paramRefs, s < st.length) → r ∈ f.paramRefs →
      rc ∈ (HFunctionDescription.deepcopy st f).2.paramRefs → r ≠ rc) ∧
    (∀ (st : Store) (fs : HFunctionSetDescription) (r rc : PRef),
      (∀ s ∈ fs.paramRefs, s < st.length) → r ∈ fs.paramRefs →
      rc ∈ (HFunctionSetDescription.deepcopy st fs).2.paramRefs → r ≠ rc) ∧
    (∀ (st : Store) (m : HModelDescription) (r rc : PRef) (v : ℚ),
      (∀ s ∈ m.paramRefs, s < st.length) → r ∈ m.paramRefs →
      rc ∈ (HModelDescription.deepcopy st m).2.paramRefs →
      r ≠ rc ∧
      (setParamValue (HModelDescription.deepcopy st m).1 rc v).getD r default =
        st.getD r default ∧
      (setParamValue (HModelDescription.deepcopy st m).1 r v).getD rc default =
        (HModelDescription.deepcopy st m).1.getD rc default) ∧
    (∀ (st : Store) (m mc : HModelDescription),
      (hSimpleFromModel st m).2 = .ok mc →
      mc.paramRefs = (m.functionSets.getD 0 default).paramRefs) := by
  refine ⟨?_, ?_, ?_, ?_⟩
  · intro st f r rc hwf hr hrc
    obtain ⟨ext, hext, hfresh⟩ := hFunctionDeepcopy_spec st f
    have h1 := hwf r hr
    have h2 := (hfresh rc hrc).1
    exact Nat.ne_of_lt (lt_of_lt_of_le h1 h2)
  · intro st fs r rc hwf hr hrc
    obtain ⟨ext, hext, hfresh⟩ := hFunctionSetDeepcopy_spec st fs
    have h1 := hwf r hr
    have h2 := (hfresh rc hrc).1
    exact Nat.ne_of_lt (lt_of_lt_of_le h1 h2)
  · intro st m r rc v hwf hr hrc
    obtain ⟨ext, hext, hfresh⟩ := hModelDeepcopy_spec st m
    have h1 := hwf r hr
    obtain ⟨h2, h3⟩ := hfresh rc hrc
    have hne : r ≠ rc := Nat.ne_of_lt (lt_of_lt_of_le h1 h2)
    refine ⟨hne, ?_, ?_⟩
    · show ((HModelDescription.deepcopy st m).1.set rc _).getD r default =
        st.getD r default
      rw [getD_set_ne _ _ _ _ _ (Ne.symm hne), hext, getD_append_left _ _ _ _ h1]
    · show ((HModelDescription.deepcopy st m).1.set r _).getD rc default =
        (HModelDescription.deepcopy st m).1.getD rc default
      rw [getD_set_ne _ _ _ _ _ hne]
  · intro st m mc h
    simp only [hSimpleFromModel] at h
    split at h
    · simp at h
    · have h2 := Except.ok.inj h
      subst h2
      simp [HModelDescription.paramRefs, shallowCopyFunctionSet]

/-- Claim C6, witness: the deep-copy independence applied to the concrete
one-set model `exModel` over `exStore` — the source's x0 (reference 0) and
the copy's x0 (reference 3) are distinct, and writing through either leaves
the other's entry unchanged. -/
theorem C6_witness :
    (0 : PRef) ≠ 3 ∧
    (setParamValue (HModelDescription.deepcopy exStore exModel).1 3 99).getD 0 default =
      exStore.getD 0 default ∧
    (setParamValue (HModelDescription.deepcopy exStore exModel).1 0 99).getD 3 default =
      (HModelDescription.deepcopy exStore exModel).1.getD 3 default :=
  C6_amended.2.2.1 exStore exModel 0 3 99 (by decide) (by decide) (by decide)

end PyImfit
